import Mathlib

/-!
# Verification of the multi-camera motion-detection core

This file gives a shallow embedding, in Lean 4, of the core logic of the
dual-camera object-tracking program (modules `object_tracker.py`,
`camera_manager.py` and `config.py`) and proves properties of it.

Modelling conventions:

* Python machine integers are modelled by `Int`; Python floor division `//`
  is `Int.fdiv`.
* Python real (float) arithmetic is idealised as exact rational arithmetic
  over `ℚ`; all the properties proved here are algebraic properties of the
  formulas the code computes.
* Frames are opaque (`Nat` stands for a decoded image); the pluggable
  detector and identity-tracker capabilities are parameters that either
  return a value or fail (`Except Unit`), mirroring Python calls that can
  raise.
* Stateful loops (the per-camera acquisition loop) are modelled as pure
  functions consuming an explicit trace of read results.
-/

namespace MultiCam

/-! ## Configuration constants (from `config.py`) -/

def FRAME_WIDTH : Int := 640
def FRAME_HEIGHT : Int := 480
def CAMERA_DISTANCE : ℚ := 1/2
def MIN_OBJECT_SIZE : Int := 500
def MAX_OBJECT_SIZE : Int := 200000
def TRACK_CLASSES : List String := ["car"]

/-! ## Data model (from `object_tracker.py`) -/

/-- An axis-aligned bounding box `(x, y, width, height)` in pixel space,
as stored in `DetectedObject.bbox`. -/
structure Box where
  x : Int
  y : Int
  w : Int
  h : Int
deriving DecidableEq, Repr

/-- `DetectedObject`: one detection, possibly carrying a track identity and a
3-D position (fields `bbox`, `confidence`, `class_id`, `class_name`,
`camera_id`, `track_id`, `position_3d` of the Python class; the wall-clock
`timestamp` is irrelevant to the logic and omitted). -/
structure DetectedObject where
  bbox : Box
  confidence : ℚ
  class_id : Int
  class_name : String
  camera_id : String
  track_id : Option Nat := none
  position_3d : Option (ℚ × ℚ × ℚ) := none
deriving DecidableEq, Repr

/-- `DetectedObject.get_center`: center point of the bounding box, with
Python floor division `//`. -/
def get_center (b : Box) : Int × Int :=
  (b.x + b.w.fdiv 2, b.y + b.h.fdiv 2)

/-- `DetectedObject.get_area`: area of the bounding box. -/
def get_area (b : Box) : Int :=
  b.w * b.h

/-! ## IoU (`ObjectTracker._calculate_iou`) -/

/-- `ObjectTracker._calculate_iou`: intersection over union of two boxes,
exactly as coded: early return `0.0` when the intersection rectangle is
inverted, and a guarded division `intersection / union if union > 0 else 0.0`. -/
def calculate_iou (bbox1 bbox2 : Box) : ℚ :=
  let xLeft := max bbox1.x bbox2.x
  let yTop := max bbox1.y bbox2.y
  let xRight := min (bbox1.x + bbox1.w) (bbox2.x + bbox2.w)
  let yBottom := min (bbox1.y + bbox1.h) (bbox2.y + bbox2.h)
  if xRight < xLeft ∨ yBottom < yTop then 0
  else
    let intersection : Int := (xRight - xLeft) * (yBottom - yTop)
    let union : Int := bbox1.w * bbox1.h + bbox2.w * bbox2.h - intersection
    if union > 0 then (intersection : ℚ) / (union : ℚ) else 0

/-- Spec-side notion: the (signed) area of the intersection rectangle of the
two boxes, `(min of right edges − max of left edges) · (min of bottom edges −
max of top edges)`. -/
def intersectionArea (bbox1 bbox2 : Box) : Int :=
  (min (bbox1.x + bbox1.w) (bbox2.x + bbox2.w) - max bbox1.x bbox2.x) *
    (min (bbox1.y + bbox1.h) (bbox2.y + bbox2.h) - max bbox1.y bbox2.y)

/-- Spec-side notion: the union area as the code computes it,
`area1 + area2 − intersection`. -/
def unionArea (bbox1 bbox2 : Box) : Int :=
  bbox1.w * bbox1.h + bbox2.w * bbox2.h - intersectionArea bbox1 bbox2

/-- Spec-side notion: the two boxes are disjoint (their interiors do not
overlap): in some axis the intervals at most touch. -/
def disjointBoxes (bbox1 bbox2 : Box) : Prop :=
  min (bbox1.x + bbox1.w) (bbox2.x + bbox2.w) ≤ max bbox1.x bbox2.x ∨
    min (bbox1.y + bbox1.h) (bbox2.y + bbox2.h) ≤ max bbox1.y bbox2.y

/-- Spec-side notion: the two boxes overlap (their interiors intersect):
in both axes the intervals strictly overlap. -/
def overlapBoxes (bbox1 bbox2 : Box) : Prop :=
  max bbox1.x bbox2.x < min (bbox1.x + bbox1.w) (bbox2.x + bbox2.w) ∧
    max bbox1.y bbox2.y < min (bbox1.y + bbox1.h) (bbox2.y + bbox2.h)

/-! ## Detection (`ObjectTracker.detect_objects`) -/

/-- One raw detection produced by the pluggable YOLO detector: corner
coordinates `(x1, y1, x2, y2)` (already converted to `int`, as the code does
with `int(x1), int(y1), int(x2-x1), int(y2-y1)`), a confidence, a class id
and a class name. -/
structure RawDetection where
  x1 : Int
  y1 : Int
  x2 : Int
  y2 : Int
  conf : ℚ
  cls : Int
  clsName : String
deriving DecidableEq, Repr

/-- Does a raw detection pass both filters of `detect_objects`
(class allow-list and pixel-area range)? -/
def passesFilters (r : RawDetection) : Bool :=
  decide (r.clsName ∈ TRACK_CLASSES ∧
    MIN_OBJECT_SIZE ≤ (r.x2 - r.x1) * (r.y2 - r.y1) ∧
    (r.x2 - r.x1) * (r.y2 - r.y1) ≤ MAX_OBJECT_SIZE)

/-- `ObjectTracker.detect_objects`: the detector capability either raises
(`Except.error`, caught by the code's `try/except`, which then returns `[]`;
the `yolo_model is None` early return is observationally the same) or yields
raw detections, which are filtered by class allow-list and by bounding-box
pixel area before being wrapped as `DetectedObject`s. -/
def detect_objects (result : Except Unit (List RawDetection)) (camera_id : String) :
    List DetectedObject :=
  match result with
  | .error _ => []
  | .ok raws =>
    raws.filterMap fun r =>
      let x := r.x1
      let y := r.y1
      let w := r.x2 - r.x1
      let h := r.y2 - r.y1
      if r.clsName ∈ TRACK_CLASSES then
        if MIN_OBJECT_SIZE ≤ w * h ∧ w * h ≤ MAX_OBJECT_SIZE then
          some { bbox := ⟨x, y, w, h⟩, confidence := r.conf, class_id := r.cls,
                 class_name := r.clsName, camera_id := camera_id }
        else none
      else none

/-! ## Identity re-association (`ObjectTracker._update_deepsort_tracking`) -/

/-- One track reported by the pluggable IdentityTracker (DeepSORT):
a persistent identity, a confirmation flag, and its output box (the code's
`int`-conversion of `track.to_tlbr()` into `(x, y, w, h)` is absorbed into
the `bbox` field, which is already integral `(x, y, w, h)`). -/
structure Track where
  track_id : Nat
  confirmed : Bool
  bbox : Box
deriving DecidableEq, Repr

/-- Default detection object (stand-in used with `List.getD` at indices that
are always in range by construction). -/
def defaultDet : DetectedObject :=
  { bbox := ⟨0, 0, 0, 0⟩, confidence := 0, class_id := 0, class_name := "",
    camera_id := "" }

/-- The code's best-match scan over the (current) detection list for one
track box: walk the detections in order, keeping the strictly best IoU so far
(`if iou > best_iou`, with `best_iou` starting at `0`), and return the index
of the winner, or `none` when no detection achieves a strictly positive IoU.
`i` is the index of the head of the remaining list. -/
def bestScan : List DetectedObject → Box → ℚ → Option Nat → Nat → Option Nat
  | [], _, _, best, _ => best
  | d :: rest, tb, bestIou, best, i =>
    let iou := calculate_iou d.bbox tb
    if bestIou < iou then bestScan rest tb iou (some i) (i + 1)
    else bestScan rest tb bestIou best (i + 1)

/-- Index of the code's `best_obj` for one track (see `bestScan`). -/
def bestMatchIdx (dets : List DetectedObject) (tb : Box) : Option Nat :=
  bestScan dets tb 0 none 0

/-- The track loop of `_update_deepsort_tracking`, made explicit about the
in-place mutation the Python code performs: it threads the (mutable)
detection list through the tracks, and records the *index* of each promoted
detection, because `tracked_objects.append(best_obj)` appends a reference
whose fields a later track may overwrite again. Returns the final detection
list and the promoted indices in track order. -/
def runTracks : List Track → List DetectedObject → List DetectedObject × List Nat
  | [], dets => (dets, [])
  | tr :: rest, dets =>
    if tr.confirmed then
      match bestMatchIdx dets tr.bbox with
      | some i =>
        let d := dets.getD i defaultDet
        let dets1 := dets.set i { d with track_id := some tr.track_id, bbox := tr.bbox }
        let r := runTracks rest dets1
        (r.1, i :: r.2)
      | none => runTracks rest dets
    else runTracks rest dets

/-- The list returned by the track loop: each promoted index, dereferenced in
the *final* detection-list state (Python aliasing semantics). -/
def processTracks (tracks : List Track) (dets : List DetectedObject) :
    List DetectedObject :=
  let r := runTracks tracks dets
  r.2.map fun i => r.1.getD i defaultDet

/-- `ObjectTracker._update_deepsort_tracking`: feed the detections to the
per-camera IdentityTracker capability; if it raises, the `except` branch
returns the detected objects unchanged; otherwise re-associate each confirmed
track to a detection by maximal IoU. (The `object_history` bookkeeping does
not affect the returned list and is omitted.) -/
def update_deepsort_tracking
    (tracker : List DetectedObject → Except Unit (List Track))
    (detected_objects : List DetectedObject) : List DetectedObject :=
  match tracker detected_objects with
  | .error _ => detected_objects
  | .ok tracks => processTracks tracks detected_objects

/-! ## 3-D position estimation (`ObjectTracker._triangulate_position`,
`ObjectTracker._estimate_single_camera_position`,
`ObjectTracker._calculate_3d_positions`) -/

/-- `ObjectTracker._triangulate_position`: stereo triangulation from the two
objects' pixel centers. Pixel centers are normalized relative to the frame
center; if the horizontal disparity is below `0.01` the function returns
`none` (the code's division-by-zero guard); otherwise depth is
`CAMERA_DISTANCE / disparity` and the position is the midpoint of the
normalized coordinates scaled by the depth. (The `try/except` wrapper cannot
fire on this pure arithmetic.) -/
def triangulate_position (obj1 obj2 : DetectedObject) : Option (ℚ × ℚ × ℚ) :=
  let center1 := get_center obj1.bbox
  let center2 := get_center obj2.bbox
  let x1 : ℚ := ((center1.1 - FRAME_WIDTH.fdiv 2 : Int) : ℚ) / ((FRAME_WIDTH.fdiv 2 : Int) : ℚ)
  let y1 : ℚ := ((center1.2 - FRAME_HEIGHT.fdiv 2 : Int) : ℚ) / ((FRAME_HEIGHT.fdiv 2 : Int) : ℚ)
  let x2 : ℚ := ((center2.1 - FRAME_WIDTH.fdiv 2 : Int) : ℚ) / ((FRAME_WIDTH.fdiv 2 : Int) : ℚ)
  let y2 : ℚ := ((center2.2 - FRAME_HEIGHT.fdiv 2 : Int) : ℚ) / ((FRAME_HEIGHT.fdiv 2 : Int) : ℚ)
  let disparity := |x1 - x2|
  if disparity < 1/100 then none
  else
    let depth := CAMERA_DISTANCE / disparity
    some ((x1 + x2) * depth / 2, (y1 + y2) * depth / 2, depth)

/-- `ObjectTracker._estimate_single_camera_position`: monocular position
estimate. Depth is interpolated between 1 m and 10 m from the object's pixel
area relative to 10 % of the frame area, the depth factor being clamped to
`[0.1, 1.0]`; the horizontal position is offset by `∓ CAMERA_DISTANCE / 2`
depending on the camera. -/
def estimate_single_camera_position (obj : DetectedObject) (camera_id : String) :
    ℚ × ℚ × ℚ :=
  let center := get_center obj.bbox
  let x_norm : ℚ := ((center.1 - FRAME_WIDTH.fdiv 2 : Int) : ℚ) / ((FRAME_WIDTH.fdiv 2 : Int) : ℚ)
  let y_norm : ℚ := ((center.2 - FRAME_HEIGHT.fdiv 2 : Int) : ℚ) / ((FRAME_HEIGHT.fdiv 2 : Int) : ℚ)
  let area : ℚ := (get_area obj.bbox : ℚ)
  let max_area : ℚ := (FRAME_WIDTH : ℚ) * (FRAME_HEIGHT : ℚ) * (1/10)
  let depth_factor : ℚ := max (1/10) (min 1 (area / max_area))
  let min_depth : ℚ := 1
  let max_depth : ℚ := 10
  let estimated_depth := min_depth + (max_depth - min_depth) * (1 - depth_factor)
  let x_3d := if camera_id = "camera1" then
      -CAMERA_DISTANCE / 2 + x_norm * estimated_depth
    else
      CAMERA_DISTANCE / 2 + x_norm * estimated_depth
  let y_3d := y_norm * estimated_depth
  (x_3d, y_3d, estimated_depth)

/-- The cross-source matching scan of `_calculate_3d_positions`: among the
camera-2 objects, find the candidate with the same class name whose vertical
similarity `1 / (1 + |Δy| / FRAME_HEIGHT)` strictly improves on the best so
far and exceeds `0.3`. -/
def findBestMatch (obj1 : DetectedObject) : List DetectedObject → ℚ → Option DetectedObject →
    Option DetectedObject
  | [], _, best => best
  | obj2 :: rest, bestSim, best =>
    if obj1.class_name = obj2.class_name then
      let yDiff : ℚ := |((get_center obj1.bbox).2 : ℚ) - ((get_center obj2.bbox).2 : ℚ)|
      let similarity : ℚ := 1 / (1 + yDiff / (FRAME_HEIGHT : ℚ))
      if similarity > bestSim ∧ similarity > 3/10 then
        findBestMatch obj1 rest similarity (some obj2)
      else findBestMatch obj1 rest bestSim best
    else findBestMatch obj1 rest bestSim best

/-- The camera-1 pass of `_calculate_3d_positions` for one object: use
triangulation against the best match if one exists, the monocular estimate
otherwise; assign the position only when it is not `none`. -/
def assignPosition1 (objects2 : List DetectedObject) (obj1 : DetectedObject) :
    DetectedObject :=
  let pos :=
    match findBestMatch obj1 objects2 0 none with
    | some m => triangulate_position obj1 m
    | none => some (estimate_single_camera_position obj1 "camera1")
  match pos with
  | some p => { obj1 with position_3d := some p }
  | none => obj1

/-- The camera-2 pass of `_calculate_3d_positions` for one object: objects
that still have no 3-D position get the monocular estimate. -/
def assignPosition2 (obj2 : DetectedObject) : DetectedObject :=
  match obj2.position_3d with
  | some _ => obj2
  | none => { obj2 with position_3d := some (estimate_single_camera_position obj2 "camera2") }

/-- `ObjectTracker._calculate_3d_positions`: the two passes above. The Python
code mutates the objects in place; since the camera-1 pass reads only
camera-2 objects (which it never mutates) plus the object being updated, and
the camera-2 pass is per-object, this is faithfully a pair of maps. -/
def calculate_3d_positions (objects1 objects2 : List DetectedObject) :
    List DetectedObject × List DetectedObject :=
  (objects1.map (assignPosition1 objects2), objects2.map assignPosition2)

/-! ## Per-cycle orchestration (`ObjectTracker.track_objects`) -/

/-- `ObjectTracker.track_objects`: per update cycle, for each present frame
run detection then identity re-association; if both resulting lists are
non-empty, run the 3-D position pass. `detector cam frame` and `tracker cam`
are the pluggable capabilities for the named camera (they may raise). -/
def track_objects (frame1 frame2 : Option Nat)
    (detector : String → Nat → Except Unit (List RawDetection))
    (tracker : String → List DetectedObject → Except Unit (List Track)) :
    List DetectedObject × List DetectedObject :=
  let tracked_objects1 :=
    match frame1 with
    | none => []
    | some f => update_deepsort_tracking (tracker "camera1")
        (detect_objects (detector "camera1" f) "camera1")
  let tracked_objects2 :=
    match frame2 with
    | none => []
    | some f => update_deepsort_tracking (tracker "camera2")
        (detect_objects (detector "camera2" f) "camera2")
  if tracked_objects1 ≠ [] ∧ tracked_objects2 ≠ [] then
    calculate_3d_positions tracked_objects1 tracked_objects2
  else
    (tracked_objects1, tracked_objects2)

/-! ## Network-address normalization (`CameraStream._format_ip_webcam_url`)

Python string primitives (`strip`, `startswith`, `endswith`, `in`,
`replace`) are modelled by executable functions on `List Char`. -/

/-- Python `str.strip()`: drop leading and trailing whitespace. -/
def pyStrip (s : String) : String :=
  ⟨(((s.data.dropWhile Char.isWhitespace).reverse.dropWhile Char.isWhitespace).reverse)⟩

/-- Python `str.startswith(t)`. -/
def pyStartsWith (s t : String) : Bool :=
  t.data.isPrefixOf s.data

/-- Python `str.endswith(t)`. -/
def pyEndsWith (s t : String) : Bool :=
  t.data.reverse.isPrefixOf s.data.reverse

/-- Substring occurrence on character lists (Python `pat in s`). -/
def containsSub (pat : List Char) : List Char → Bool
  | [] => pat.isPrefixOf []
  | c :: rest => pat.isPrefixOf (c :: rest) || containsSub pat rest

/-- Python `pat in s`. -/
def pyContains (s pat : String) : Bool :=
  containsSub pat.data s.data

/-- Python `str.replace`: replace every (leftmost, non-overlapping)
occurrence of `pat` by `rep`. Structural recursion on a fuel that is an upper
bound on the number of scan steps (each step consumes at least one character
when `pat` is non-empty, so the fuel is never exhausted on our inputs). -/
def replaceAux (pat rep : List Char) : Nat → List Char → List Char
  | _, [] => []
  | 0, s => s
  | fuel + 1, c :: rest =>
    if pat.isPrefixOf (c :: rest) then
      rep ++ replaceAux pat rep fuel (List.drop pat.length (c :: rest))
    else
      c :: replaceAux pat rep fuel rest

/-- Python `s.replace(pat, rep)`. -/
def pyReplace (s pat rep : String) : String :=
  ⟨replaceAux pat.data rep.data s.data.length s.data⟩

/-- The scheme-prefixing step of `_format_ip_webcam_url`: strip whitespace,
then prepend `http://` when the address has no `http://`/`https://` scheme. -/
def withScheme (url : String) : String :=
  let url := pyStrip url
  if pyStartsWith url "http://" || pyStartsWith url "https://" then url
  else "http://" ++ url

/-- `CameraStream._format_ip_webcam_url`: whitespace stripping, scheme
defaulting, then the suffix-rewriting cascade exactly as coded
(`'/video' in url` is tested first, so it also captures URLs containing
`/videofeed`). -/
def format_ip_webcam_url (url : String) : String :=
  let url := withScheme url
  if pyContains url "/video" then pyReplace url "/video" "/shot.jpg"
  else if pyContains url "/shot.jpg" then url
  else if pyContains url "/videofeed" then pyReplace url "/videofeed" "/shot.jpg"
  else if pyContains url "/stream" then pyReplace url "/stream" "/shot.jpg"
  else if pyContains url ":" && !pyEndsWith url "/" then url ++ "/shot.jpg"
  else url

/-! ## Acquisition loop and manager (`CameraStream._update`,
`CameraStream.get_frame`, `CameraManager`) -/

/-- The mutable state of one `CameraStream` that the claims observe: the
latest stored frame (`self.frame`), the loop's consecutive-read-failure
counter, and the cooperative stop flag (`self.stopped`). Frames are opaque
`Nat`s; the FPS bookkeeping and the MJPEG-specific error counter do not
affect the claims and are omitted. -/
structure StreamState where
  frame : Option Nat
  consecutive_errors : Nat
  stopped : Bool
deriving DecidableEq, Repr

/-- `CameraStream._update`, the acquisition loop, as a pure function over an
explicit trace of read results (`some f` = a successfully read and resized
frame, `none` = a failed read; capture-handle loss and exception paths also
count as failed iterations). On success the failure counter resets and the
frame is stored; on failure the counter increments and the loop breaks when
it reaches `max_consecutive_errors = 10` — note that the `break` exits the
loop *without* touching the `stopped` flag. The function returns the state at
loop exit; input remaining after a break is never consumed. -/
def updateLoop : List (Option Nat) → StreamState → StreamState
  | [], s => s
  | r :: rest, s =>
    if s.stopped then s
    else
      match r with
      | some f => updateLoop rest { s with frame := some f, consecutive_errors := 0 }
      | none =>
        let c := s.consecutive_errors + 1
        if c = 10 then { s with consecutive_errors := c }
        else updateLoop rest { s with consecutive_errors := c }

/-- `CameraStream.get_frame`: the latest stored frame (a defensive copy),
or `None` when none was ever stored. Non-blocking by construction. -/
def stream_get_frame (s : StreamState) : Option Nat :=
  s.frame

/-- The `running` field `get_camera_info` reports for one slot:
`not camera.stopped` for a live slot, `False` for a disabled one. -/
def camera_info_running (c : Option StreamState) : Bool :=
  match c with
  | some s => !s.stopped
  | none => false

/-- `CameraManager` state: the `cameras` dict (a slot may hold `none` for a
disabled camera; after `stop_all` the dict is empty) and the `running` flag. -/
structure CameraManagerState where
  cameras : List (String × Option StreamState)
  running : Bool
deriving DecidableEq, Repr

/-- A fresh `CameraManager` (`__init__`): empty dict, not running. -/
def managerInit : CameraManagerState :=
  { cameras := [], running := false }

/-- `CameraManager.get_frames`: when not `running`, return `(None, None)`
immediately; otherwise index the `cameras` dict for both slots — a missing
key is a Python `KeyError`, modelled as `Except.error`. -/
def get_frames (m : CameraManagerState) : Except Unit (Option Nat × Option Nat) :=
  if !m.running then .ok (none, none)
  else
    match m.cameras.lookup "camera1", m.cameras.lookup "camera2" with
    | some c1, some c2 =>
      .ok (match c1 with | some s => stream_get_frame s | none => none,
           match c2 with | some s => stream_get_frame s | none => none)
    | _, _ => .error ()

/-- `CameraManager.stop_all`: clear `running`, stop every stream, clear the
dict. -/
def stop_all (_m : CameraManagerState) : CameraManagerState :=
  { cameras := [], running := false }

/-- Everything of a `DetectedObject` except its 3-D annotation (used to
state that the position pass changes no other field). -/
def coreFields (o : DetectedObject) :
    Box × Option Nat × String × ℚ × Int × String :=
  (o.bbox, o.track_id, o.class_name, o.confidence, o.class_id, o.camera_id)

/-! ## Spec-side notions for the position estimator -/

/-- Spec-side notion: normalized horizontal coordinate of a pixel center,
relative to the frame center. -/
def normX (c : Int × Int) : ℚ :=
  ((c.1 - FRAME_WIDTH.fdiv 2 : Int) : ℚ) / ((FRAME_WIDTH.fdiv 2 : Int) : ℚ)

/-- Spec-side notion: normalized vertical coordinate of a pixel center,
relative to the frame center. -/
def normY (c : Int × Int) : ℚ :=
  ((c.2 - FRAME_HEIGHT.fdiv 2 : Int) : ℚ) / ((FRAME_HEIGHT.fdiv 2 : Int) : ℚ)

/-- Spec-side notion: horizontal disparity of the two objects' normalized
centers. -/
def disparityOf (obj1 obj2 : DetectedObject) : ℚ :=
  |normX (get_center obj1.bbox) - normX (get_center obj2.bbox)|

/-! ## Shared lemmas about `calculate_iou` -/

/-- When the intersection rectangle is not inverted, its area is at most the
area of the first box (the intersection interval is contained in the box's
interval in each axis). -/
theorem intersection_le_area1 (b1 b2 : Box)
    (hx : max b1.x b2.x ≤ min (b1.x + b1.w) (b2.x + b2.w))
    (hy : max b1.y b2.y ≤ min (b1.y + b1.h) (b2.y + b2.h)) :
    intersectionArea b1 b2 ≤ b1.w * b1.h := by
  unfold intersectionArea
  have h1 : min (b1.x + b1.w) (b2.x + b2.w) - max b1.x b2.x ≤ b1.w := by
    have := le_max_left b1.x b2.x
    have := min_le_left (b1.x + b1.w) (b2.x + b2.w)
    omega
  have h2 : min (b1.y + b1.h) (b2.y + b2.h) - max b1.y b2.y ≤ b1.h := by
    have := le_max_left b1.y b2.y
    have := min_le_left (b1.y + b1.h) (b2.y + b2.h)
    omega
  have h3 : 0 ≤ min (b1.x + b1.w) (b2.x + b2.w) - max b1.x b2.x := by omega
  have h4 : 0 ≤ min (b1.y + b1.h) (b2.y + b2.h) - max b1.y b2.y := by omega
  exact mul_le_mul h1 h2 h4 (by omega)

/-- Symmetric bound against the second box. -/
theorem intersection_le_area2 (b1 b2 : Box)
    (hx : max b1.x b2.x ≤ min (b1.x + b1.w) (b2.x + b2.w))
    (hy : max b1.y b2.y ≤ min (b1.y + b1.h) (b2.y + b2.h)) :
    intersectionArea b1 b2 ≤ b2.w * b2.h := by
  unfold intersectionArea
  have h1 : min (b1.x + b1.w) (b2.x + b2.w) - max b1.x b2.x ≤ b2.w := by
    have := le_max_right b1.x b2.x
    have := min_le_right (b1.x + b1.w) (b2.x + b2.w)
    omega
  have h2 : min (b1.y + b1.h) (b2.y + b2.h) - max b1.y b2.y ≤ b2.h := by
    have := le_max_right b1.y b2.y
    have := min_le_right (b1.y + b1.h) (b2.y + b2.h)
    omega
  have h3 : 0 ≤ min (b1.x + b1.w) (b2.x + b2.w) - max b1.x b2.x := by omega
  have h4 : 0 ≤ min (b1.y + b1.h) (b2.y + b2.h) - max b1.y b2.y := by omega
  exact mul_le_mul h1 h2 h4 (by omega)

/-- `calculate_iou` rewritten through the named spec-side areas: it is `0` on
an inverted intersection rectangle, and otherwise the guarded quotient of
`intersectionArea` by `unionArea`. -/
theorem calculate_iou_eq (b1 b2 : Box) :
    calculate_iou b1 b2 =
      if min (b1.x + b1.w) (b2.x + b2.w) < max b1.x b2.x ∨
          min (b1.y + b1.h) (b2.y + b2.h) < max b1.y b2.y then 0
      else if 0 < unionArea b1 b2 then
        (intersectionArea b1 b2 : ℚ) / (unionArea b1 b2 : ℚ)
      else 0 := by
  simp only [calculate_iou, unionArea, intersectionArea]

/-- C5: For axis-aligned boxes `(x, y, width, height)`: `IoU(b, b) = 1` for
every box of positive width and height; `IoU(b1, b2) = 0` for disjoint
(non-overlapping) boxes; IoU is symmetric; and whenever the boxes overlap the
result is the intersection area divided by `area1 + area2 − intersection`. -/
theorem iou_identity_disjoint_symm_formula (b1 b2 : Box) :
    (0 < b1.w → 0 < b1.h → calculate_iou b1 b1 = 1) ∧
    (disjointBoxes b1 b2 → calculate_iou b1 b2 = 0) ∧
    calculate_iou b1 b2 = calculate_iou b2 b1 ∧
    (overlapBoxes b1 b2 →
      calculate_iou b1 b2 =
        (intersectionArea b1 b2 : ℚ) /
          ((get_area b1 + get_area b2 - intersectionArea b1 b2 : Int) : ℚ)) := by
  refine ⟨?_, ?_, ?_, ?_⟩
  · intro hw hh
    rw [calculate_iou_eq]
    have h1 : ¬ (min (b1.x + b1.w) (b1.x + b1.w) < max b1.x b1.x ∨
        min (b1.y + b1.h) (b1.y + b1.h) < max b1.y b1.y) := by
      simp only [min_self, max_self]
      omega
    rw [if_neg h1]
    have h2 : intersectionArea b1 b1 = b1.w * b1.h := by
      unfold intersectionArea
      simp only [min_self, max_self]
      ring
    have h3 : unionArea b1 b1 = b1.w * b1.h := by
      unfold unionArea
      rw [h2]; ring
    have h4 : 0 < unionArea b1 b1 := by
      rw [h3]; positivity
    rw [if_pos h4, h2, h3]
    rw [div_self]
    have : (0 : Int) < b1.w * b1.h := by positivity
    exact_mod_cast this.ne.symm
  · intro hd
    rw [calculate_iou_eq]
    by_cases h1 : min (b1.x + b1.w) (b2.x + b2.w) < max b1.x b2.x ∨
        min (b1.y + b1.h) (b2.y + b2.h) < max b1.y b2.y
    · rw [if_pos h1]
    · rw [if_neg h1]
      push_neg at h1
      have h2 : intersectionArea b1 b2 = 0 := by
        unfold intersectionArea
        rcases hd with h | h
        · have : min (b1.x + b1.w) (b2.x + b2.w) - max b1.x b2.x = 0 := by omega
          rw [this, zero_mul]
        · have : min (b1.y + b1.h) (b2.y + b2.h) - max b1.y b2.y = 0 := by omega
          rw [this, mul_zero]
      rw [h2]
      split
      · simp
      · rfl
  · rw [calculate_iou_eq, calculate_iou_eq]
    rw [max_comm b2.x b1.x, max_comm b2.y b1.y, min_comm (b2.x + b2.w) (b1.x + b1.w),
      min_comm (b2.y + b2.h) (b1.y + b1.h)]
    have hu : unionArea b2 b1 = unionArea b1 b2 := by
      unfold unionArea intersectionArea
      rw [max_comm b2.x b1.x, max_comm b2.y b1.y, min_comm (b2.x + b2.w) (b1.x + b1.w),
        min_comm (b2.y + b2.h) (b1.y + b1.h)]
      ring
    have hi : intersectionArea b2 b1 = intersectionArea b1 b2 := by
      unfold intersectionArea
      rw [max_comm b2.x b1.x, max_comm b2.y b1.y, min_comm (b2.x + b2.w) (b1.x + b1.w),
        min_comm (b2.y + b2.h) (b1.y + b1.h)]
    rw [hu, hi]
  · rintro ⟨hx, hy⟩
    rw [calculate_iou_eq]
    have h1 : ¬ (min (b1.x + b1.w) (b2.x + b2.w) < max b1.x b2.x ∨
        min (b1.y + b1.h) (b2.y + b2.h) < max b1.y b2.y) := by omega
    rw [if_neg h1]
    have hw2 : 0 < b2.w := by
      have := le_max_right b1.x b2.x
      have := min_le_right (b1.x + b1.w) (b2.x + b2.w)
      omega
    have hh2 : 0 < b2.h := by
      have := le_max_right b1.y b2.y
      have := min_le_right (b1.y + b1.h) (b2.y + b2.h)
      omega
    have hle : intersectionArea b1 b2 ≤ b1.w * b1.h :=
      intersection_le_area1 b1 b2 hx.le hy.le
    have hu : 0 < unionArea b1 b2 := by
      unfold unionArea
      have : 0 < b2.w * b2.h := by positivity
      omega
    rw [if_pos hu]
    unfold unionArea get_area
    rfl

/-- Witness for the IoU claim at concrete boxes: `⟨0,0,4,4⟩` against itself,
a disjoint pair, and an overlapping pair. -/
theorem iou_identity_disjoint_symm_formula_witness :
    calculate_iou ⟨0, 0, 4, 4⟩ ⟨0, 0, 4, 4⟩ = 1 ∧
    calculate_iou ⟨0, 0, 4, 4⟩ ⟨9, 9, 4, 4⟩ = 0 ∧
    calculate_iou ⟨0, 0, 4, 4⟩ ⟨2, 2, 4, 4⟩ =
      (intersectionArea ⟨0, 0, 4, 4⟩ ⟨2, 2, 4, 4⟩ : ℚ) /
        ((get_area ⟨0, 0, 4, 4⟩ + get_area ⟨2, 2, 4, 4⟩ -
          intersectionArea ⟨0, 0, 4, 4⟩ ⟨2, 2, 4, 4⟩ : Int) : ℚ) := by
  refine ⟨?_, ?_, ?_⟩
  · exact (iou_identity_disjoint_symm_formula ⟨0, 0, 4, 4⟩ ⟨0, 0, 4, 4⟩).1
      (by decide) (by decide)
  · exact (iou_identity_disjoint_symm_formula ⟨0, 0, 4, 4⟩ ⟨9, 9, 4, 4⟩).2.1
      (Or.inl (by decide))
  · exact (iou_identity_disjoint_symm_formula ⟨0, 0, 4, 4⟩ ⟨2, 2, 4, 4⟩).2.2.2
      ⟨by decide, by decide⟩

/-- C9: totality/safety of the IoU computation: whenever the code's union
value is not strictly positive the function returns `0` (no division by
zero), and for boxes of non-negative width and height the result always lies
in `[0, 1]`. -/
theorem iou_total_and_bounded (b1 b2 : Box) :
    (unionArea b1 b2 ≤ 0 → calculate_iou b1 b2 = 0) ∧
    (0 ≤ b1.w → 0 ≤ b1.h → 0 ≤ b2.w → 0 ≤ b2.h →
      0 ≤ calculate_iou b1 b2 ∧ calculate_iou b1 b2 ≤ 1) := by
  constructor
  · intro hu
    rw [calculate_iou_eq]
    split
    · rfl
    · rw [if_neg (by omega)]
  · intro hw1 hh1 hw2 hh2
    rw [calculate_iou_eq]
    by_cases h1 : min (b1.x + b1.w) (b2.x + b2.w) < max b1.x b2.x ∨
        min (b1.y + b1.h) (b2.y + b2.h) < max b1.y b2.y
    · rw [if_pos h1]
      norm_num
    · rw [if_neg h1]
      push_neg at h1
      obtain ⟨hx, hy⟩ := h1
      by_cases hu : 0 < unionArea b1 b2
      · rw [if_pos hu]
        have hi0 : 0 ≤ intersectionArea b1 b2 := by
          unfold intersectionArea
          have h3 : 0 ≤ min (b1.x + b1.w) (b2.x + b2.w) - max b1.x b2.x := by omega
          have h4 : 0 ≤ min (b1.y + b1.h) (b2.y + b2.h) - max b1.y b2.y := by omega
          positivity
        have hle1 : intersectionArea b1 b2 ≤ b1.w * b1.h :=
          intersection_le_area1 b1 b2 hx hy
        have hle2 : intersectionArea b1 b2 ≤ b2.w * b2.h :=
          intersection_le_area2 b1 b2 hx hy
        have hiu : intersectionArea b1 b2 ≤ unionArea b1 b2 := by
          unfold unionArea
          omega
        constructor
        · apply div_nonneg
          · exact_mod_cast hi0
          · have : (0 : Int) ≤ unionArea b1 b2 := hu.le
            exact_mod_cast this
        · rw [div_le_one (by exact_mod_cast hu)]
          exact_mod_cast hiu
      · rw [if_neg hu]
        norm_num

/-- Witness for the IoU totality claim: degenerate zero-area boxes give `0`,
and a normal pair is bounded by `[0, 1]`. -/
theorem iou_total_and_bounded_witness :
    calculate_iou ⟨0, 0, 0, 0⟩ ⟨0, 0, 0, 0⟩ = 0 ∧
    0 ≤ calculate_iou ⟨0, 0, 4, 4⟩ ⟨2, 2, 4, 4⟩ ∧
    calculate_iou ⟨0, 0, 4, 4⟩ ⟨2, 2, 4, 4⟩ ≤ 1 := by
  refine ⟨?_, ?_⟩
  · exact (iou_total_and_bounded ⟨0, 0, 0, 0⟩ ⟨0, 0, 0, 0⟩).1 (by decide)
  · exact (iou_total_and_bounded ⟨0, 0, 4, 4⟩ ⟨2, 2, 4, 4⟩).2
      (by decide) (by decide) (by decide) (by decide)

/-- The depth component of the monocular estimate, as a function of the
object's pixel area alone. -/
theorem estimate_depth_eq (obj : DetectedObject) (camera_id : String) :
    (estimate_single_camera_position obj camera_id).2.2 =
      1 + 9 * (1 - max (1/10) (min 1 ((get_area obj.bbox : ℚ) / 30720))) := by
  simp only [estimate_single_camera_position, FRAME_WIDTH, FRAME_HEIGHT]
  norm_num

/-- C6: the monocular depth estimate is monotonically non-increasing in the
object's bounding-box pixel area, and always lies within the configured
`[1.0, 10.0]` metre range. (It depends on the box only through its area, so
"holding the center fixed" is subsumed.) -/
theorem monocular_depth_monotone_bounded (o1 o2 : DetectedObject) (camera_id : String) :
    (get_area o1.bbox ≤ get_area o2.bbox →
      (estimate_single_camera_position o2 camera_id).2.2 ≤
        (estimate_single_camera_position o1 camera_id).2.2) ∧
    1 ≤ (estimate_single_camera_position o1 camera_id).2.2 ∧
    (estimate_single_camera_position o1 camera_id).2.2 ≤ 10 := by
  have hone : (1 : ℚ) ≤ 10 := by norm_num
  refine ⟨?_, ?_, ?_⟩
  · intro h
    rw [estimate_depth_eq, estimate_depth_eq]
    have hc : ((get_area o1.bbox : ℚ)) ≤ ((get_area o2.bbox : ℚ)) := by exact_mod_cast h
    have hdiv : (get_area o1.bbox : ℚ) / 30720 ≤ (get_area o2.bbox : ℚ) / 30720 := by
      gcongr
    have hmin : min 1 ((get_area o1.bbox : ℚ) / 30720) ≤
        min 1 ((get_area o2.bbox : ℚ) / 30720) := min_le_min le_rfl hdiv
    have hmax : max (1/10) (min 1 ((get_area o1.bbox : ℚ) / 30720)) ≤
        max (1/10) (min 1 ((get_area o2.bbox : ℚ) / 30720)) := max_le_max le_rfl hmin
    linarith
  · rw [estimate_depth_eq]
    have hdf : max (1/10) (min 1 ((get_area o1.bbox : ℚ) / 30720)) ≤ 1 :=
      max_le (by norm_num) (min_le_left _ _)
    linarith
  · rw [estimate_depth_eq]
    have hdf : (1/10 : ℚ) ≤ max (1/10) (min 1 ((get_area o1.bbox : ℚ) / 30720)) :=
      le_max_left _ _
    linarith

/-- Witness for the monocular-depth claim: a 10×10 box versus a 20×20 box on
camera 1. -/
theorem monocular_depth_monotone_bounded_witness :
    (estimate_single_camera_position
        { bbox := ⟨0, 0, 20, 20⟩, confidence := 1, class_id := 2,
          class_name := "car", camera_id := "camera1" } "camera1").2.2 ≤
      (estimate_single_camera_position
        { bbox := ⟨0, 0, 10, 10⟩, confidence := 1, class_id := 2,
          class_name := "car", camera_id := "camera1" } "camera1").2.2 :=
  (monocular_depth_monotone_bounded
    { bbox := ⟨0, 0, 10, 10⟩, confidence := 1, class_id := 2,
      class_name := "car", camera_id := "camera1" }
    { bbox := ⟨0, 0, 20, 20⟩, confidence := 1, class_id := 2,
      class_name := "car", camera_id := "camera1" } "camera1").1 (by decide)

/-- C1: triangulation returns `none` exactly when the horizontal disparity of
the normalized centers is below `0.01`; otherwise the returned (finite,
rational) triple satisfies `z = CAMERA_DISTANCE / disparity`,
`x = (x1 + x2) · z / 2` and `y = (y1 + y2) · z / 2`. -/
theorem triangulation_characterization (obj1 obj2 : DetectedObject) :
    (triangulate_position obj1 obj2 = none ↔ disparityOf obj1 obj2 < 1/100) ∧
    (∀ p : ℚ × ℚ × ℚ, triangulate_position obj1 obj2 = some p →
      p.2.2 = CAMERA_DISTANCE / disparityOf obj1 obj2 ∧
      p.1 = (normX (get_center obj1.bbox) + normX (get_center obj2.bbox)) * p.2.2 / 2 ∧
      p.2.1 = (normY (get_center obj1.bbox) + normY (get_center obj2.bbox)) * p.2.2 / 2) := by
  simp only [triangulate_position, disparityOf, normX, normY]
  split
  · rename_i h
    refine ⟨iff_of_true rfl h, ?_⟩
    intro p hp
    exact absurd hp (by simp)
  · rename_i h
    refine ⟨iff_of_false (by simp) h, ?_⟩
    intro p hp
    obtain rfl := (Option.some.injEq _ _).mp hp
    exact ⟨rfl, rfl, rfl⟩

/-- Witness for the triangulation claim: centers `(480, 240)` and
`(160, 240)` give disparity `1` and position `(0, 0, 1/2)`. -/
theorem triangulation_characterization_witness :
    triangulate_position
        { bbox := ⟨480, 240, 0, 0⟩, confidence := 1, class_id := 2,
          class_name := "car", camera_id := "camera1" }
        { bbox := ⟨160, 240, 0, 0⟩, confidence := 1, class_id := 2,
          class_name := "car", camera_id := "camera2" } = some (0, 0, 1/2) ∧
    ((0 : ℚ), (0 : ℚ), (1/2 : ℚ)).2.2 =
      CAMERA_DISTANCE / disparityOf
        { bbox := ⟨480, 240, 0, 0⟩, confidence := 1, class_id := 2,
          class_name := "car", camera_id := "camera1" }
        { bbox := ⟨160, 240, 0, 0⟩, confidence := 1, class_id := 2,
          class_name := "car", camera_id := "camera2" } := by
  have hsome : triangulate_position
      { bbox := ⟨480, 240, 0, 0⟩, confidence := 1, class_id := 2,
        class_name := "car", camera_id := "camera1" }
      { bbox := ⟨160, 240, 0, 0⟩, confidence := 1, class_id := 2,
        class_name := "car", camera_id := "camera2" } = some (0, 0, 1/2) := by
    have e1 : (FRAME_WIDTH).fdiv 2 = 320 := rfl
    have e2 : (FRAME_HEIGHT).fdiv 2 = 240 := rfl
    simp only [triangulate_position, get_center, CAMERA_DISTANCE, e1, e2]
    norm_num
  refine ⟨hsome, ?_⟩
  exact ((triangulation_characterization
    { bbox := ⟨480, 240, 0, 0⟩, confidence := 1, class_id := 2,
      class_name := "car", camera_id := "camera1" }
    { bbox := ⟨160, 240, 0, 0⟩, confidence := 1, class_id := 2,
      class_name := "car", camera_id := "camera2" }).2 (0, 0, 1/2) hsome).1

/-! ## Detection-filter claims -/

/-- Filtering a list first by a predicate under which the partial map is
`none` anyway does not change the result of the partial map. -/
theorem filterMap_filter_of_none {α β : Type} (p : α → Bool) (f : α → Option β)
    (h : ∀ a, p a = false → f a = none) (l : List α) :
    (l.filter p).filterMap f = l.filterMap f := by
  induction l with
  | nil => rfl
  | cons a t ih =>
    by_cases hp : p a = true
    · simp only [List.filter_cons, hp, if_true, List.filterMap_cons, ih]
    · have hpf : p a = false := by
        revert hp
        cases p a <;> simp
      simp only [List.filter_cons, hpf, Bool.false_eq_true, if_false,
        List.filterMap_cons, h a hpf, ih]

/-- C8: every object returned by `detect_objects` has a class label in the
`TRACK_CLASSES` allow-list and a bounding-box pixel area within
`[MIN_OBJECT_SIZE, MAX_OBJECT_SIZE]`; and raw detections failing either
filter are discarded (removing them from the input leaves the output
unchanged). -/
theorem detection_class_and_size_filter (result : Except Unit (List RawDetection))
    (camera_id : String) :
    (∀ obj ∈ detect_objects result camera_id,
      obj.class_name ∈ TRACK_CLASSES ∧
      MIN_OBJECT_SIZE ≤ get_area obj.bbox ∧ get_area obj.bbox ≤ MAX_OBJECT_SIZE) ∧
    (∀ raws, result = .ok raws →
      detect_objects (.ok (raws.filter passesFilters)) camera_id =
        detect_objects result camera_id) := by
  constructor
  · intro obj hobj
    match result with
    | .error _ => simp only [detect_objects] at hobj; cases hobj
    | .ok raws =>
      simp only [detect_objects, List.mem_filterMap] at hobj
      obtain ⟨r, _, hfr⟩ := hobj
      by_cases h1 : r.clsName ∈ TRACK_CLASSES
      · rw [if_pos h1] at hfr
        by_cases h2 : MIN_OBJECT_SIZE ≤ (r.x2 - r.x1) * (r.y2 - r.y1) ∧
            (r.x2 - r.x1) * (r.y2 - r.y1) ≤ MAX_OBJECT_SIZE
        · rw [if_pos h2] at hfr
          obtain rfl := (Option.some.injEq _ _).mp hfr
          exact ⟨h1, h2.1, h2.2⟩
        · rw [if_neg h2] at hfr
          cases hfr
      · rw [if_neg h1] at hfr
        cases hfr
  · rintro raws rfl
    simp only [detect_objects]
    apply filterMap_filter_of_none
    intro r hr
    have hr2 : ¬ (r.clsName ∈ TRACK_CLASSES ∧
        MIN_OBJECT_SIZE ≤ (r.x2 - r.x1) * (r.y2 - r.y1) ∧
        (r.x2 - r.x1) * (r.y2 - r.y1) ≤ MAX_OBJECT_SIZE) := by
      intro hc
      rw [passesFilters, decide_eq_false_iff_not] at hr
      exact hr hc
    by_cases h1 : r.clsName ∈ TRACK_CLASSES
    · rw [if_pos h1]
      rw [if_neg]
      intro h2
      exact hr2 ⟨h1, h2⟩
    · rw [if_neg h1]

/-- Witness for the detection-filter claim: a "car" of area 10000 passes
(and satisfies both filters), while removing the discarded "dog" and the
oversized "car" from the raw list leaves the output unchanged. -/
theorem detection_class_and_size_filter_witness :
    (({ bbox := ⟨0, 0, 100, 100⟩, confidence := 1, class_id := 2,
        class_name := "car", camera_id := "camera1" } : DetectedObject).class_name ∈
        TRACK_CLASSES ∧
      MIN_OBJECT_SIZE ≤ get_area (⟨0, 0, 100, 100⟩ : Box) ∧
      get_area (⟨0, 0, 100, 100⟩ : Box) ≤ MAX_OBJECT_SIZE) ∧
    detect_objects (.ok ([⟨0, 0, 100, 100, 1, 2, "car"⟩,
        ⟨0, 0, 100, 100, 1, 16, "dog"⟩,
        ⟨0, 0, 1000, 1000, 1, 2, "car"⟩].filter passesFilters)) "camera1" =
      detect_objects (.ok [⟨0, 0, 100, 100, 1, 2, "car"⟩,
        ⟨0, 0, 100, 100, 1, 16, "dog"⟩, ⟨0, 0, 1000, 1000, 1, 2, "car"⟩])
        "camera1" :=
  ⟨(detection_class_and_size_filter (.ok [⟨0, 0, 100, 100, 1, 2, "car"⟩])
      "camera1").1
      { bbox := ⟨0, 0, 100, 100⟩, confidence := 1, class_id := 2,
        class_name := "car", camera_id := "camera1" } (by decide),
   (detection_class_and_size_filter (.ok [⟨0, 0, 100, 100, 1, 2, "car"⟩,
      ⟨0, 0, 100, 100, 1, 16, "dog"⟩, ⟨0, 0, 1000, 1000, 1, 2, "car"⟩])
      "camera1").2 _ rfl⟩

/-! ## Manager read-safety and acquisition-loop failure -/

/-- C10: whenever the manager's `running` flag is `false` — on a fresh
manager or after `stop_all` — `get_frames` returns `(None, None)` immediately
without consulting any camera slot, and in particular never raises even
though `stop_all` clears the `cameras` dict. -/
theorem get_frames_not_running (m : CameraManagerState) :
    (m.running = false → get_frames m = .ok (none, none)) ∧
    (stop_all m).running = false ∧
    get_frames (stop_all m) = .ok (none, none) ∧
    get_frames managerInit = .ok (none, none) := by
  refine ⟨?_, rfl, rfl, rfl⟩
  intro h
  simp only [get_frames, h, Bool.not_false, if_true]

/-- Witness for the manager read-safety claim: a stopped manager whose dict
still holds a camera with a stored frame, and the cleared manager obtained by
`stop_all` from it. -/
theorem get_frames_not_running_witness :
    get_frames ⟨[("camera1", some ⟨some 5, 0, false⟩), ("camera2", none)], false⟩ =
      .ok (none, none) ∧
    get_frames (stop_all ⟨[("camera1", some ⟨some 5, 0, false⟩), ("camera2", none)], true⟩) =
      .ok (none, none) :=
  ⟨(get_frames_not_running ⟨[("camera1", some ⟨some 5, 0, false⟩), ("camera2", none)], false⟩).1 rfl,
   (get_frames_not_running ⟨[("camera1", some ⟨some 5, 0, false⟩), ("camera2", none)], true⟩).2.2.1⟩

/-- C3, counterexample: feeding the acquisition loop eleven consecutive
failed reads from a fresh stream, the loop exits when the failure counter
reaches 10 (the counter never reaches 11, so the eleventh read is never
consumed), and — contrary to the claim — the health snapshot afterwards
still reports `running = true`, because the loop's `break` never sets the
`stopped` flag. -/
theorem acquisition_failure_counterexample :
    updateLoop (List.replicate 11 none) ⟨none, 0, false⟩ =
      updateLoop (List.replicate 10 none) ⟨none, 0, false⟩ ∧
    (updateLoop (List.replicate 11 none) ⟨none, 0, false⟩).consecutive_errors = 10 ∧
    (updateLoop (List.replicate 11 none) ⟨none, 0, false⟩).stopped = false ∧
    camera_info_running (some (updateLoop (List.replicate 11 none) ⟨none, 0, false⟩)) = true :=
  ⟨rfl, rfl, rfl, rfl⟩

/-- C3, amended: after 10 consecutive read failures the acquisition loop
terminates (any further input is never consumed); afterwards the health
snapshot still reports `running = true` for that source, since the `stopped`
flag is only set by an explicit `stop()`; and a subsequent non-blocking
`get_frames` returns the last successfully stored frame for that slot —
absent (`None`) exactly when no frame was ever captured. -/
theorem acquisition_failure_amended (f : Option Nat) (rest : List (Option Nat)) :
    updateLoop (List.replicate 10 none ++ rest) ⟨f, 0, false⟩ = ⟨f, 10, false⟩ ∧
    camera_info_running
      (some (updateLoop (List.replicate 10 none ++ rest) ⟨f, 0, false⟩)) = true ∧
    stream_get_frame (updateLoop (List.replicate 10 none ++ rest) ⟨f, 0, false⟩) = f ∧
    get_frames ⟨[("camera1",
        some (updateLoop (List.replicate 10 none ++ rest) ⟨f, 0, false⟩)),
        ("camera2", none)], true⟩ = .ok (f, none) :=
  ⟨rfl, rfl, rfl, rfl⟩

/-! ## Per-source capability-error containment -/

/-- The track loop promotes nothing out of an empty detection list. -/
theorem runTracks_nil (tracks : List Track) : runTracks tracks [] = ([], []) := by
  induction tracks with
  | nil => rfl
  | cons tr rest ih =>
    simp only [runTracks, bestMatchIdx, bestScan]
    split
    · exact ih
    · exact ih

/-- Identity re-association of an empty detection list yields an empty
list, whether or not the tracker capability raises. -/
theorem update_deepsort_tracking_nil
    (tracker : List DetectedObject → Except Unit (List Track)) :
    update_deepsort_tracking tracker [] = [] := by
  unfold update_deepsort_tracking
  cases h : tracker [] with
  | error e => rfl
  | ok tracks => simp only [processTracks, runTracks_nil, List.map_nil]

/-- The camera-1 position pass changes only the 3-D annotation. -/
theorem coreFields_assignPosition1 (objects2 : List DetectedObject)
    (obj1 : DetectedObject) :
    coreFields (assignPosition1 objects2 obj1) = coreFields obj1 := by
  unfold assignPosition1
  rcases findBestMatch obj1 objects2 0 none with _ | m
  · rfl
  · dsimp only
    rcases triangulate_position obj1 m with _ | p
    · rfl
    · rfl

/-- The camera-2 position pass changes only the 3-D annotation. -/
theorem coreFields_assignPosition2 (obj2 : DetectedObject) :
    coreFields (assignPosition2 obj2) = coreFields obj2 := by
  unfold assignPosition2
  rcases obj2.position_3d with _ | p
  · rfl
  · rfl

/-- C4, counterexample: the IdentityTracker capability raising for camera 1
does *not* make that source's list empty — the `except` branch of
`_update_deepsort_tracking` returns the detected objects unchanged (without
identities). Here one "car" detection survives the tracker failure. -/
theorem tracker_error_counterexample :
    (track_objects (some 0) none
      (fun _ _ => .ok [⟨0, 0, 100, 100, 1, 2, "car"⟩])
      (fun cam _ => if cam = "camera1" then .error () else .ok [])).1 =
      [{ bbox := ⟨0, 0, 100, 100⟩, confidence := 1, class_id := 2,
         class_name := "car", camera_id := "camera1" }] ∧
    (track_objects (some 0) none
      (fun _ _ => .ok [⟨0, 0, 100, 100, 1, 2, "car"⟩])
      (fun cam _ => if cam = "camera1" then .error () else .ok [])).1 ≠ [] := by
  refine ⟨rfl, ?_⟩
  decide

/-- C4, amended: capability failures are contained per source and the cycle
always completes, but with different fallbacks: a Detector failure for one
source yields an empty object list for that source, while an IdentityTracker
failure yields that source's filtered detections *unchanged* (no identities);
in both cases the other source's pipeline output is unaffected (up to the 3-D
annotation pass, which touches no other field). -/
theorem capability_error_containment (f1 : Nat) (f2 : Option Nat)
    (detector : String → Nat → Except Unit (List RawDetection))
    (tracker : String → List DetectedObject → Except Unit (List Track)) :
    (detector "camera1" f1 = .error () →
      (track_objects (some f1) f2 detector tracker).1 = [] ∧
      (track_objects (some f1) f2 detector tracker).2 =
        (match f2 with
         | none => []
         | some f => update_deepsort_tracking (tracker "camera2")
             (detect_objects (detector "camera2" f) "camera2"))) ∧
    (tracker "camera1" (detect_objects (detector "camera1" f1) "camera1") = .error () →
      ((track_objects (some f1) f2 detector tracker).1).map coreFields =
        (detect_objects (detector "camera1" f1) "camera1").map coreFields ∧
      ((track_objects (some f1) f2 detector tracker).2).map coreFields =
        (match f2 with
         | none => []
         | some f => update_deepsort_tracking (tracker "camera2")
             (detect_objects (detector "camera2" f) "camera2")).map coreFields) := by
    constructor
    · intro hdet
      simp only [track_objects, hdet]
      rw [show detect_objects (.error ()) "camera1" = [] from rfl,
        update_deepsort_tracking_nil]
      simp
    · intro htrk
      have h1 : update_deepsort_tracking (tracker "camera1")
          (detect_objects (detector "camera1" f1) "camera1") =
          detect_objects (detector "camera1" f1) "camera1" := by
        unfold update_deepsort_tracking
        rw [htrk]
      simp only [track_objects, h1]
      split
      · simp only [calculate_3d_positions, List.map_map]
        constructor
        · apply List.map_congr_left
          intro o _
          exact coreFields_assignPosition1 _ o
        · apply List.map_congr_left
          intro o _
          exact coreFields_assignPosition2 o
      · exact ⟨rfl, rfl⟩

/-- Witness for the containment claim: a failing detector empties camera 1's
list; a failing tracker leaves the single "car" detection in it. -/
theorem capability_error_containment_witness :
    (track_objects (some 0) none
      (fun cam _ => if cam = "camera1" then .error () else .ok [])
      (fun _ _ => .ok [])).1 = [] ∧
    ((track_objects (some 0) none
      (fun _ _ => .ok [⟨0, 0, 100, 100, 1, 2, "car"⟩])
      (fun cam _ => if cam = "camera1" then .error () else .ok [])).1).map coreFields =
      (detect_objects (.ok [⟨0, 0, 100, 100, 1, 2, "car"⟩]) "camera1").map coreFields := by
  constructor
  · exact ((capability_error_containment 0 none
      (fun cam _ => if cam = "camera1" then .error () else .ok [])
      (fun _ _ => .ok [])).1 rfl).1
  · exact ((capability_error_containment 0 none
      (fun _ _ => .ok [⟨0, 0, 100, 100, 1, 2, "car"⟩])
      (fun cam _ => if cam = "camera1" then .error () else .ok [])).2 rfl).1

/-! ## Re-association (identity assignment) claims -/

/-- Full characterisation of the best-match scan relative to its accumulator:
either nothing beats the running best `b` (and the accumulator is returned),
or the scan returns the absolute index of the first detection achieving the
maximal IoU, which strictly beats `b` and every earlier detection. -/
theorem bestScan_spec (tb : Box) (dets : List DetectedObject) :
    ∀ (b : ℚ) (best : Option Nat) (i : Nat),
      (bestScan dets tb b best i = best ∧
        ∀ d ∈ dets, calculate_iou d.bbox tb ≤ b) ∨
      (∃ k, k < dets.length ∧
        bestScan dets tb b best i = some (i + k) ∧
        b < calculate_iou (dets.getD k defaultDet).bbox tb ∧
        (∀ m, m < dets.length →
          calculate_iou (dets.getD m defaultDet).bbox tb ≤
            calculate_iou (dets.getD k defaultDet).bbox tb) ∧
        (∀ m, m < k →
          calculate_iou (dets.getD m defaultDet).bbox tb <
            calculate_iou (dets.getD k defaultDet).bbox tb)) := by
  induction dets with
  | nil =>
    intro b best i
    left
    exact ⟨rfl, by simp⟩
  | cons d rest ih =>
    intro b best i
    simp only [bestScan]
    by_cases hlt : b < calculate_iou d.bbox tb
    · rw [if_pos hlt]
      rcases ih (calculate_iou d.bbox tb) (some i) (i + 1) with
        ⟨heq, hall⟩ | ⟨k, hk, heq, hgt, hmax, hfirst⟩
      · right
        refine ⟨0, by simp, by rw [heq, Nat.add_zero], by simpa using hlt, ?_, ?_⟩
        · intro m hm
          match m with
          | 0 => simp
          | m + 1 =>
            rw [List.getD_cons_succ, List.getD_cons_zero]
            have hm' : m < rest.length := by simpa using hm
            have hmem : rest.getD m defaultDet ∈ rest := by
              rw [List.getD_eq_getElem rest defaultDet hm']
              exact List.getElem_mem hm'
            exact hall _ hmem
        · intro m hm
          omega
      · right
        refine ⟨k + 1, by simpa using hk, ?_, ?_, ?_, ?_⟩
        · rw [heq]
          congr 1
          omega
        · rw [List.getD_cons_succ]
          exact lt_trans hlt hgt
        · intro m hm
          match m with
          | 0 =>
            rw [List.getD_cons_succ, List.getD_cons_zero]
            exact le_of_lt hgt
          | m + 1 =>
            rw [List.getD_cons_succ, List.getD_cons_succ]
            exact hmax m (by simpa using hm)
        · intro m hm
          match m with
          | 0 =>
            rw [List.getD_cons_succ, List.getD_cons_zero]
            exact hgt
          | m + 1 =>
            rw [List.getD_cons_succ, List.getD_cons_succ]
            exact hfirst m (by omega)
    · rw [if_neg hlt]
      push_neg at hlt
      rcases ih b best (i + 1) with
        ⟨heq, hall⟩ | ⟨k, hk, heq, hgt, hmax, hfirst⟩
      · left
        refine ⟨heq, ?_⟩
        intro d2 hd2
        rcases List.mem_cons.mp hd2 with rfl | h
        · exact hlt
        · exact hall d2 h
      · right
        refine ⟨k + 1, by simpa using hk, ?_, ?_, ?_, ?_⟩
        · rw [heq]
          congr 1
          omega
        · rw [List.getD_cons_succ]
          exact hgt
        · intro m hm
          match m with
          | 0 =>
            rw [List.getD_cons_succ, List.getD_cons_zero]
            exact le_trans hlt (le_of_lt hgt)
          | m + 1 =>
            rw [List.getD_cons_succ, List.getD_cons_succ]
            exact hmax m (by simpa using hm)
        · intro m hm
          match m with
          | 0 =>
            rw [List.getD_cons_succ, List.getD_cons_zero]
            exact lt_of_le_of_lt hlt hgt
          | m + 1 =>
            rw [List.getD_cons_succ, List.getD_cons_succ]
            exact hfirst m (by omega)

/-- The index selected for a track is always in range. -/
theorem bestMatchIdx_lt (dets : List DetectedObject) (tb : Box) (i : Nat)
    (h : bestMatchIdx dets tb = some i) : i < dets.length := by
  rcases bestScan_spec tb dets 0 none 0 with ⟨heq, _⟩ | ⟨k, hk, heq, _⟩
  · rw [bestMatchIdx] at h
    rw [heq] at h
    cases h
  · rw [bestMatchIdx] at h
    rw [heq] at h
    obtain rfl := (Option.some.injEq _ _).mp h
    simpa using hk

/-- `getD` after `set` at the written index. -/
theorem getD_set_self (l : List DetectedObject) (i : Nat) (a : DetectedObject)
    (h : i < l.length) : (l.set i a).getD i defaultDet = a := by
  rw [List.getD_eq_getElem _ _ (by simpa using h)]
  exact List.getElem_set_self _

/-- `getD` after `set` at a different index. -/
theorem getD_set_ne (l : List DetectedObject) (i j : Nat) (a : DetectedObject)
    (hne : i ≠ j) : (l.set i a).getD j defaultDet = l.getD j defaultDet := by
  by_cases hj : j < l.length
  · rw [List.getD_eq_getElem _ _ (by simpa using hj),
      List.getD_eq_getElem _ _ hj]
    exact List.getElem_set_ne hne _
  · rw [List.getD_eq_default _ _ (by simp; omega),
      List.getD_eq_default _ _ (by omega)]

/-- The track loop never changes the number of detections. -/
theorem runTracks_length (tracks : List Track) :
    ∀ dets : List DetectedObject, (runTracks tracks dets).1.length = dets.length := by
  induction tracks with
  | nil => intro dets; rfl
  | cons tr rest ih =>
    intro dets
    simp only [runTracks]
    split
    · cases h : bestMatchIdx dets tr.bbox with
      | some i =>
        dsimp only
        rw [ih]
        exact List.length_set dets i _
      | none => exact ih dets
    · exact ih dets

/-- State invariant of the track loop: every slot of the final detection
list either still holds its original value or carries the identity and
refined box of some confirmed track of the list. -/
theorem runTracks_getD (tracks : List Track) :
    ∀ (dets : List DetectedObject) (j : Nat),
      (runTracks tracks dets).1.getD j defaultDet = dets.getD j defaultDet ∨
      ∃ tr ∈ tracks, tr.confirmed = true ∧
        ((runTracks tracks dets).1.getD j defaultDet).track_id = some tr.track_id ∧
        ((runTracks tracks dets).1.getD j defaultDet).bbox = tr.bbox := by
  induction tracks with
  | nil =>
    intro dets j
    left
    rfl
  | cons tr rest ih =>
    intro dets j
    simp only [runTracks]
    by_cases hc : tr.confirmed
    · rw [if_pos hc]
      cases h : bestMatchIdx dets tr.bbox with
      | none =>
        rcases ih dets j with h1 | ⟨tr2, htr2, hco, hid, hbb⟩
        · left; exact h1
        · right; exact ⟨tr2, List.mem_cons_of_mem _ htr2, hco, hid, hbb⟩
      | some i =>
        dsimp only
        rcases ih (dets.set i
            { dets.getD i defaultDet with track_id := some tr.track_id, bbox := tr.bbox }) j with
          h1 | ⟨tr2, htr2, hco, hid, hbb⟩
        · by_cases hij : i = j
          · subst hij
            right
            refine ⟨tr, List.mem_cons_self tr rest, hc, ?_, ?_⟩
            · rw [h1, getD_set_self _ _ _ (bestMatchIdx_lt dets tr.bbox i h)]
            · rw [h1, getD_set_self _ _ _ (bestMatchIdx_lt dets tr.bbox i h)]
          · left
            rw [h1, getD_set_ne _ _ _ _ hij]
        · right
          exact ⟨tr2, List.mem_cons_of_mem _ htr2, hco, hid, hbb⟩
    · rw [if_neg hc]
      rcases ih dets j with h1 | ⟨tr2, htr2, hco, hid, hbb⟩
      · left; exact h1
      · right; exact ⟨tr2, List.mem_cons_of_mem _ htr2, hco, hid, hbb⟩

/-- Index invariant of the track loop: every promoted index ends up (in the
final detection-list state) carrying the identity and refined box of some
confirmed track. -/
theorem runTracks_idx (tracks : List Track) :
    ∀ (dets : List DetectedObject), ∀ j ∈ (runTracks tracks dets).2,
      ∃ tr ∈ tracks, tr.confirmed = true ∧
        ((runTracks tracks dets).1.getD j defaultDet).track_id = some tr.track_id ∧
        ((runTracks tracks dets).1.getD j defaultDet).bbox = tr.bbox := by
  induction tracks with
  | nil =>
    intro dets j hj
    simp [runTracks] at hj
  | cons tr rest ih =>
    intro dets j hj
    simp only [runTracks]
    simp only [runTracks] at hj
    by_cases hc : tr.confirmed
    · rw [if_pos hc] at hj ⊢
      cases h : bestMatchIdx dets tr.bbox with
      | none =>
        rw [h] at hj
        dsimp only at hj ⊢
        rcases ih dets j hj with ⟨tr2, htr2, hco, hid, hbb⟩
        exact ⟨tr2, List.mem_cons_of_mem _ htr2, hco, hid, hbb⟩
      | some i =>
        rw [h] at hj
        dsimp only at hj ⊢
        rcases List.mem_cons.mp hj with rfl | hj2
        · rcases runTracks_getD rest
              (dets.set j { dets.getD j defaultDet with
                track_id := some tr.track_id, bbox := tr.bbox }) j with
            h1 | ⟨tr2, htr2, hco, hid, hbb⟩
          · refine ⟨tr, List.mem_cons_self tr rest, hc, ?_, ?_⟩
            · rw [h1, getD_set_self _ _ _ (bestMatchIdx_lt dets tr.bbox j h)]
            · rw [h1, getD_set_self _ _ _ (bestMatchIdx_lt dets tr.bbox j h)]
          · exact ⟨tr2, List.mem_cons_of_mem _ htr2, hco, hid, hbb⟩
        · rcases ih _ j hj2 with ⟨tr2, htr2, hco, hid, hbb⟩
          exact ⟨tr2, List.mem_cons_of_mem _ htr2, hco, hid, hbb⟩
    · rw [if_neg hc] at hj ⊢
      rcases ih dets j hj with ⟨tr2, htr2, hco, hid, hbb⟩
      exact ⟨tr2, List.mem_cons_of_mem _ htr2, hco, hid, hbb⟩

/-- With only unconfirmed tracks the track loop is the identity and promotes
nothing. -/
theorem runTracks_unconfirmed (tracks : List Track) :
    ∀ dets : List DetectedObject, (∀ tr ∈ tracks, tr.confirmed = false) →
      runTracks tracks dets = (dets, []) := by
  induction tracks with
  | nil => intro dets _; rfl
  | cons tr rest ih =>
    intro dets hall
    simp only [runTracks]
    rw [if_neg (by simp [hall tr (List.mem_cons_self tr rest)])]
    exact ih dets fun tr2 h => hall tr2 (List.mem_cons_of_mem _ h)

/-- C7, amended: identity re-association. (1) Every object in the returned
list carries the identity and refined box of some confirmed track. (2) If
all tracks are unconfirmed the cycle's output is empty. (3) A confirmed
track whose IoU against every *current* candidate box is zero promotes no
detection. (4) The index selected for a track is the first candidate (in
first-seen order) attaining the maximal IoU against the candidates' current
boxes, and its IoU is strictly positive. (The candidates' *current* boxes
may differ from the detected ones: an earlier track of the same cycle may
already have refined them in place.) -/
theorem reassociation_properties
    (tracker : List DetectedObject → Except Unit (List Track))
    (tracks : List Track) (dets : List DetectedObject) (tb : Box) :
    (tracker dets = .ok tracks →
      ∀ o ∈ update_deepsort_tracking tracker dets,
        ∃ tr ∈ tracks, tr.confirmed = true ∧
          o.track_id = some tr.track_id ∧ o.bbox = tr.bbox) ∧
    (tracker dets = .ok tracks → (∀ tr ∈ tracks, tr.confirmed = false) →
      update_deepsort_tracking tracker dets = []) ∧
    ((∀ d ∈ dets, calculate_iou d.bbox tb = 0) → bestMatchIdx dets tb = none) ∧
    (∀ i, bestMatchIdx dets tb = some i →
      i < dets.length ∧
      0 < calculate_iou (dets.getD i defaultDet).bbox tb ∧
      (∀ m, m < dets.length →
        calculate_iou (dets.getD m defaultDet).bbox tb ≤
          calculate_iou (dets.getD i defaultDet).bbox tb) ∧
      (∀ m, m < i →
        calculate_iou (dets.getD m defaultDet).bbox tb <
          calculate_iou (dets.getD i defaultDet).bbox tb)) := by
  refine ⟨?_, ?_, ?_, ?_⟩
  · intro hok o ho
    unfold update_deepsort_tracking at ho
    rw [hok] at ho
    simp only [processTracks, List.mem_map] at ho
    obtain ⟨j, hj, rfl⟩ := ho
    exact runTracks_idx tracks dets j hj
  · intro hok hall
    unfold update_deepsort_tracking
    rw [hok]
    simp only [processTracks, runTracks_unconfirmed tracks dets hall, List.map_nil]
  · intro hz
    rcases bestScan_spec tb dets 0 none 0 with ⟨heq, _⟩ | ⟨k, hk, _, hgt, _, _⟩
    · rw [bestMatchIdx, heq]
    · exfalso
      have hmem : dets.getD k defaultDet ∈ dets := by
        rw [List.getD_eq_getElem dets defaultDet hk]
        exact List.getElem_mem hk
      rw [hz _ hmem] at hgt
      exact lt_irrefl 0 hgt
  · intro i hi
    rcases bestScan_spec tb dets 0 none 0 with ⟨heq, _⟩ | ⟨k, hk, heq, hgt, hmax, hfirst⟩
    · rw [bestMatchIdx, heq] at hi
      cases hi
    · rw [bestMatchIdx, heq] at hi
      obtain rfl := (Option.some.injEq _ _).mp hi
      rw [Nat.zero_add]
      exact ⟨hk, hgt, hmax, hfirst⟩

/-- C7, counterexample: a confirmed track whose IoU against every *detected*
candidate box is zero can still promote a detection, because an earlier track
of the same cycle refined the candidate's box in place (and the promoted
object can appear twice, carrying the identity assigned last). Here track 2's
box `(12,12,5,5)` has IoU `0` with the sole detection `(0,0,10,10)`, yet
after track 1 refines that detection to `(5,5,10,10)` the output is two
references to it, both with identity `2`. -/
theorem reassociation_counterexample :
    calculate_iou ⟨0, 0, 10, 10⟩ ⟨12, 12, 5, 5⟩ = 0 ∧
    (update_deepsort_tracking
        (fun _ => .ok [⟨1, true, ⟨5, 5, 10, 10⟩⟩, ⟨2, true, ⟨12, 12, 5, 5⟩⟩])
        [{ bbox := ⟨0, 0, 10, 10⟩, confidence := 1, class_id := 2,
           class_name := "car", camera_id := "camera1" }]).map
        (fun o => o.track_id) = [some 2, some 2] := by
  constructor
  · rw [calculate_iou_eq, if_pos (by decide)]
  · have hIA : (0 : ℚ) < calculate_iou ⟨0, 0, 10, 10⟩ ⟨5, 5, 10, 10⟩ := by
      rw [calculate_iou_eq, if_neg (by decide), if_pos (by decide)]
      have h1 : intersectionArea ⟨0, 0, 10, 10⟩ ⟨5, 5, 10, 10⟩ = 25 := by decide
      have h2 : unionArea ⟨0, 0, 10, 10⟩ ⟨5, 5, 10, 10⟩ = 175 := by decide
      rw [h1, h2]
      norm_num
    have hIB : (0 : ℚ) < calculate_iou ⟨5, 5, 10, 10⟩ ⟨12, 12, 5, 5⟩ := by
      rw [calculate_iou_eq, if_neg (by decide), if_pos (by decide)]
      have h1 : intersectionArea ⟨5, 5, 10, 10⟩ ⟨12, 12, 5, 5⟩ = 9 := by decide
      have h2 : unionArea ⟨5, 5, 10, 10⟩ ⟨12, 12, 5, 5⟩ = 116 := by decide
      rw [h1, h2]
      norm_num
    simp +decide [update_deepsort_tracking, processTracks, runTracks,
      bestMatchIdx, bestScan, hIA, hIB]

/-- Witness for the re-association claim: a single unconfirmed track promotes
nothing, and a track box with zero IoU against the sole (unrefined) candidate
selects no index. -/
theorem reassociation_properties_witness :
    update_deepsort_tracking (fun _ => .ok [⟨7, false, ⟨0, 0, 5, 5⟩⟩])
      [{ bbox := ⟨0, 0, 10, 10⟩, confidence := 1, class_id := 2,
         class_name := "car", camera_id := "camera1" }] = [] ∧
    bestMatchIdx
      [{ bbox := ⟨0, 0, 10, 10⟩, confidence := 1, class_id := 2,
         class_name := "car", camera_id := "camera1" }] ⟨12, 12, 5, 5⟩ = none := by
  constructor
  · exact (reassociation_properties (fun _ => .ok [⟨7, false, ⟨0, 0, 5, 5⟩⟩])
      [⟨7, false, ⟨0, 0, 5, 5⟩⟩]
      [{ bbox := ⟨0, 0, 10, 10⟩, confidence := 1, class_id := 2,
         class_name := "car", camera_id := "camera1" }] ⟨0, 0, 0, 0⟩).2.1 rfl
      (by decide)
  · refine (reassociation_properties (fun _ => .ok ([] : List Track))
      ([] : List Track)
      [{ bbox := ⟨0, 0, 10, 10⟩, confidence := 1, class_id := 2,
         class_name := "car", camera_id := "camera1" }] ⟨12, 12, 5, 5⟩).2.2.1 ?_
    intro d hd
    rcases List.mem_singleton.mp hd with rfl
    rw [calculate_iou_eq, if_pos (by decide)]

/-! ## Network-address normalization claims -/

/-- Substring occurrence is antitone in the pattern: if a pattern occurs in
`s`, so does every prefix of it. -/
theorem containsSub_of_prefix (pat1 pat2 s : List Char)
    (hp : pat1.isPrefixOf pat2 = true) (hs : containsSub pat2 s = true) :
    containsSub pat1 s = true := by
  induction s with
  | nil =>
    simp only [containsSub] at hs ⊢
    rw [ List.isPrefixOf_iff_prefix] at hs hp ⊢
    exact hp.trans hs
  | cons c rest ih =>
    simp only [containsSub, Bool.or_eq_true] at hs ⊢
    rcases hs with h | h
    · left
      rw [ List.isPrefixOf_iff_prefix] at hp h ⊢
      exact hp.trans h
    · right
      exact ih h

/-- Appending a suffix makes `pyEndsWith` by that suffix true. -/
theorem pyEndsWith_append (s t : String) : pyEndsWith (s ++ t) t = true := by
  have hd : (s ++ t).data = s.data ++ t.data := by
    cases s
    cases t
    rfl
  rw [pyEndsWith, hd, List.reverse_append, List.isPrefixOf_iff_prefix]
  exact List.prefix_append _ _

/-- C2, counterexample: (a) an address containing `/videofeed` is *not*
rewritten to the `/shot.jpg` suffix — the `'/video' in url` branch fires
first and rewrites its `/video` prefix, yielding a `/shot.jpgfeed` suffix;
(b) an address with a port separator but ending in `/` does *not* get
`/shot.jpg` appended. -/
theorem url_normalization_counterexample :
    format_ip_webcam_url "1.2.3.4:8080/videofeed" = "http://1.2.3.4:8080/shot.jpgfeed" ∧
    pyEndsWith (format_ip_webcam_url "1.2.3.4:8080/videofeed") "/shot.jpg" = false ∧
    format_ip_webcam_url "1.2.3.4:8080/" = "http://1.2.3.4:8080/" ∧
    pyEndsWith (format_ip_webcam_url "1.2.3.4:8080/") "/shot.jpg" = false := by
  refine ⟨by decide, by decide, by decide, by decide⟩

/-- C2, amended: normalization strips whitespace and prefixes `http://` when
no scheme is present; then an address containing `/video` has each `/video`
occurrence replaced by `/shot.jpg` (in particular an address containing
`/videofeed` also takes this branch, so the dedicated `/videofeed` rewrite is
unreachable and such addresses end up with a `/shot.jpgfeed` suffix); an
address already containing `/shot.jpg` is unchanged; otherwise `/stream` is
rewritten to `/shot.jpg`; and an address with no recognized suffix that
contains `:` *and does not end in `/`* gets `/shot.jpg` appended, so it ends
in `/shot.jpg`; the address `"1.2.3.4:8080/video"` normalizes to
`"http://1.2.3.4:8080/shot.jpg"`. -/
theorem url_normalization_amended (url : String) :
    (pyStartsWith (pyStrip url) "http://" = false →
      pyStartsWith (pyStrip url) "https://" = false →
      withScheme url = "http://" ++ pyStrip url) ∧
    (pyContains (withScheme url) "/video" = true →
      format_ip_webcam_url url = pyReplace (withScheme url) "/video" "/shot.jpg") ∧
    (pyContains (withScheme url) "/videofeed" = true →
      pyContains (withScheme url) "/video" = true) ∧
    (pyContains (withScheme url) "/video" = false →
      pyContains (withScheme url) "/shot.jpg" = true →
      format_ip_webcam_url url = withScheme url) ∧
    (pyContains (withScheme url) "/video" = false →
      pyContains (withScheme url) "/shot.jpg" = false →
      pyContains (withScheme url) "/stream" = true →
      format_ip_webcam_url url = pyReplace (withScheme url) "/stream" "/shot.jpg") ∧
    (pyContains (withScheme url) "/video" = false →
      pyContains (withScheme url) "/shot.jpg" = false →
      pyContains (withScheme url) "/stream" = false →
      pyContains (withScheme url) ":" = true →
      pyEndsWith (withScheme url) "/" = false →
      format_ip_webcam_url url = withScheme url ++ "/shot.jpg" ∧
      pyEndsWith (format_ip_webcam_url url) "/shot.jpg" = true) ∧
    format_ip_webcam_url "1.2.3.4:8080/video" = "http://1.2.3.4:8080/shot.jpg" := by
  refine ⟨?_, ?_, ?_, ?_, ?_, ?_, by decide⟩
  · intro h1 h2
    simp only [withScheme, h1, h2, Bool.or_self, Bool.false_eq_true, if_false]
  · intro h
    simp only [format_ip_webcam_url, h, if_true]
  · intro h
    exact containsSub_of_prefix _ _ _ (by decide) h
  · intro h1 h2
    simp only [format_ip_webcam_url, h1, h2, Bool.false_eq_true, if_false, if_true]
  · intro h1 h2 h3
    have h4 : pyContains (withScheme url) "/videofeed" = false := by
      cases h5 : pyContains (withScheme url) "/videofeed"
      · rfl
      · have h8 : pyContains (withScheme url) "/video" = true :=
          containsSub_of_prefix _ _ _ (by decide) h5
        rw [h8] at h1
        cases h1
    simp only [format_ip_webcam_url, h1, h2, h3, h4, Bool.false_eq_true, if_false, if_true]
  · intro h1 h2 h3 h4 h5
    have h6 : pyContains (withScheme url) "/videofeed" = false := by
      cases h7 : pyContains (withScheme url) "/videofeed"
      · rfl
      · have h8 : pyContains (withScheme url) "/video" = true :=
          containsSub_of_prefix _ _ _ (by decide) h7
        rw [h8] at h1
        cases h1
    have heq : format_ip_webcam_url url = withScheme url ++ "/shot.jpg" := by
      simp only [format_ip_webcam_url, h1, h2, h3, h4, h5, h6, Bool.false_eq_true,
        if_false, Bool.not_false, Bool.and_self, if_true]
    exact ⟨heq, by rw [heq]; exact pyEndsWith_append _ _⟩

/-- Witness for the normalization claim: the `/video` rewrite branch on the
scenario address, and the append branch on a bare `host:port` address. -/
theorem url_normalization_amended_witness :
    format_ip_webcam_url "1.2.3.4:8080/video" =
      pyReplace (withScheme "1.2.3.4:8080/video") "/video" "/shot.jpg" ∧
    format_ip_webcam_url "9.8.7.6:8080" = withScheme "9.8.7.6:8080" ++ "/shot.jpg" ∧
    pyEndsWith (format_ip_webcam_url "9.8.7.6:8080") "/shot.jpg" = true := by
  refine ⟨?_, ?_, ?_⟩
  · exact (url_normalization_amended "1.2.3.4:8080/video").2.1 (by decide)
  · exact ((url_normalization_amended "9.8.7.6:8080").2.2.2.2.2.1 (by decide)
      (by decide) (by decide) (by decide) (by decide)).1
  · exact ((url_normalization_amended "9.8.7.6:8080").2.2.2.2.2.1 (by decide)
      (by decide) (by decide) (by decide) (by decide)).2

end MultiCam
